import Mathlib

/-!
Verification of the ExpenseForwarder core (expense conversion and balancing
engine) against its specification.

Shallow embedding conventions:
* Monetary values travel through the Python code as binary floats and as
  decimal strings with exactly two fractional digits.  We model every
  monetary quantity as an exact rational (ℚ); a 2-decimal string such as
  "45.00" is represented by the rational it denotes.  Python's
  f-string rounding (f of x with format .2f) is modelled by rounding the
  exact rational to the nearest multiple of 1/100 (round2 below).  All
  concrete inputs used in counterexamples are far from half-cent
  boundaries, where every rounding convention (half-up, half-even, binary
  double rounding) agrees.
* Splitwise user dictionaries are modelled by the structure Identity with
  the fields the code reads (id, first_name, last_name, email); absent
  dict keys are read by the code as the empty string, which the String
  fields represent directly.
* External capabilities (identity lookup, category lookup) are modelled as
  explicit function parameters, bundled in Env.
* Fallible Python code (raise / ValueError) is modelled with Except.
-/

namespace ExpenseForwarder

/-- Rounding of an exact rational amount to 2 decimal places, modelling the
Python formatting of a monetary value with two fractional digits. -/
def round2 (x : ℚ) : ℚ := (round (100 * x) : ℤ) / 100

/-- Python str.strip(): removes leading and trailing whitespace. -/
def pyStrip (s : String) : String :=
  ⟨List.reverse (List.dropWhile Char.isWhitespace
    (List.reverse (List.dropWhile Char.isWhitespace s.data)))⟩

/-- Python str.lower(): lower-cases every character. -/
def pyLower (s : String) : String := ⟨s.data.map Char.toLower⟩

/-- Python str.upper(): upper-cases every character. -/
def pyUpper (s : String) : String := ⟨s.data.map Char.toUpper⟩

/-- A Splitwise user record as read by the converter: models.py users are
dicts with keys id, first_name, last_name, email. -/
structure Identity where
  id : ℤ
  first_name : String
  last_name : String
  email : String
deriving DecidableEq, Repr

/-- ParsedExpense (models.py lines 8-33), after pydantic validation.  The
datetime field is abstracted as its already-formatted date string, since
no verified property depends on date arithmetic. -/
structure ParsedExpense where
  description : String
  amount : ℚ
  currency : String
  date : Option String
  category : Option String
  participants : List String
  split_type : String
  paid_by : Option String
deriving DecidableEq, Repr

/-- SplitwiseUser (models.py lines 35-41); the 2-decimal share strings are
modelled by the rationals they denote. -/
structure SplitwiseUser where
  user_id : ℤ
  paid_share : ℚ
  owed_share : ℚ
deriving DecidableEq, Repr

/-- SplitwiseExpense (models.py lines 43-61); cost is the rational denoted
by the 2-decimal cost string, and a users value of None is modelled as the
empty list (Python treats both as falsy in the validator). -/
structure SplitwiseExpense where
  cost : ℚ
  description : String
  currency_code : String
  date : Option String
  category_id : Option ℤ
  group_id : Option ℤ
  users : List SplitwiseUser
  split_equally : Bool
deriving DecidableEq, Repr

/-- Structured validation errors raised by the pydantic model ParsedExpense
(models.py lines 12, 20-33). -/
inductive InputError where
  | amountNotPositive
  | currencyLength
  | splitTypeInvalid
deriving DecidableEq, Repr

/-- Currency validator (models.py lines 20-25): rejects a currency whose
length is not 3, otherwise upper-cases it. -/
def validate_currency (v : String) : Except InputError String :=
  if v.length ≠ 3 then .error .currencyLength else .ok (pyUpper v)

/-- Split-type validator (models.py lines 27-33): the value must be one of
equal, exact, percentage. -/
def validate_split_type (v : String) : Except InputError String :=
  if v = "equal" ∨ v = "exact" ∨ v = "percentage" then .ok v
  else .error .splitTypeInvalid

/-- Construction of a ParsedExpense through its pydantic validators:
amount must satisfy gt=0 (models.py line 12), currency and split_type run
their validators.  Pydantic aggregates all field errors; we return the
first in field-declaration order, which err on exactly the same inputs. -/
def mkParsedExpense (description : String) (amount : ℚ) (currency : String)
    (date : Option String) (category : Option String)
    (participants : List String) (split : String) (paid_by : Option String) :
    Except InputError ParsedExpense :=
  if amount ≤ 0 then .error .amountNotPositive
  else
    match validate_currency currency with
    | .error e => .error e
    | .ok c =>
        match validate_split_type split with
        | .error e => .error e
        | .ok s =>
            .ok { description := description, amount := amount, currency := c,
                  date := date, category := category,
                  participants := participants, split_type := s,
                  paid_by := paid_by }

/-- External collaborators and session state the converter depends on:
the pre-loaded current user (principal), the identity lookup capability,
the category lookup capability, and the configured default group id. -/
structure Env where
  current_user : Identity
  find_user : String → Option Identity
  find_category : String → Option ℤ
  default_group_id : Option ℤ

/-- Body of the participant-resolution loop (expense_converter.py lines
41-50): a blank token is skipped; a token is looked up stripped, and a
found user is appended only when no user with the same id is already in
the accumulated list; an unresolved token is skipped. -/
def resolve_step (env : Env) (resolved : List Identity) (participant : String) :
    List Identity :=
  if pyStrip participant = "" then resolved
  else
    match env.find_user (pyStrip participant) with
    | some user =>
        if resolved.any (fun u => u.id = user.id) then resolved
        else resolved ++ [user]
    | none => resolved

/-- Participant resolution (expense_converter.py lines 32-52): the current
user is always included first, then the loop body runs over the tokens. -/
def resolve_participants (env : Env) (participants : List String) :
    List Identity :=
  participants.foldl (resolve_step env) [env.current_user]

/-- Equal split per-user amount (expense_converter.py lines 54-60): returns
0 (the string "0.00") when there are no users, otherwise the rounded
quotient. -/
def calculate_equal_split (total_amount : ℚ) (num_users : ℕ) : ℚ :=
  if num_users = 0 then 0 else round2 (total_amount / num_users)

/-- One iteration of the payer-matching loop body (expense_converter.py
lines 68-78): the lowered paid_by string is compared against the lowered
first name, last name, trimmed full name, and email of a user. -/
def matchesPaidBy (paid_by : String) (user : Identity) : Bool :=
  let first_name := pyLower user.first_name
  let last_name := pyLower user.last_name
  let full_name := pyStrip (first_name ++ " " ++ last_name)
  let email := pyLower user.email
  let p := pyLower paid_by
  p = first_name ∨ p = last_name ∨ p = full_name ∨ p = email

/-- Payer determination (expense_converter.py lines 62-81).  Python treats
both None and the empty string as an unset paid_by; the first user of the
resolved list matching paid_by is returned, else the current user. -/
def determine_payer (parsed_expense : ParsedExpense) (env : Env)
    (resolved_users : List Identity) : Identity :=
  match parsed_expense.paid_by with
  | some paid_by =>
      if paid_by = "" then env.current_user
      else
        match resolved_users.find? (matchesPaidBy paid_by) with
        | some user => user
        | none => env.current_user
  | none => env.current_user

/-- Share-line creation (expense_converter.py lines 83-125).  Raises when
no users were resolved; under the equal policy each user owes the equal
split and only the user whose id equals the payer's id has a positive paid
share; any other policy recurses with split_type replaced by equal
(lines 116-123), mirroring the documented fallback. -/
def create_splitwise_users (parsed_expense : ParsedExpense) (env : Env)
    (resolved_users : List Identity) : Except String (List SplitwiseUser) :=
  if resolved_users = [] then .error "No valid users found for expense"
  else
    let total_amount := parsed_expense.amount
    let payer := determine_payer parsed_expense env resolved_users
    if _h : parsed_expense.split_type = "equal" then
      let amount_per_user := calculate_equal_split total_amount resolved_users.length
      .ok (resolved_users.map (fun user =>
        { user_id := user.id,
          paid_share := if user.id = payer.id then round2 total_amount else 0,
          owed_share := amount_per_user }))
    else
      create_splitwise_users { parsed_expense with split_type := "equal" }
        env resolved_users
termination_by (if parsed_expense.split_type = "equal" then 0 else 1)
decreasing_by simp_all

/-- Date formatting (expense_converter.py lines 127-131), with the datetime
abstracted as its formatted string. -/
def format_date (date : Option String) : Option String := date

/-- Category resolution (expense_converter.py lines 133-147): None or an
empty name yields no category; otherwise the external lookup capability is
consulted, any lookup failure yielding None. -/
def resolve_category (env : Env) (category_name : Option String) : Option ℤ :=
  match category_name with
  | none => none
  | some name => if name = "" then none else env.find_category name

/-- Orchestrating conversion (expense_converter.py lines 149-183): resolve
participants, create share lines, resolve the category, pick the group id
(Python group_id or default: a None or 0 group id falls back to the
configured default), and assemble the SplitwiseExpense.  No validation of
the assembled record happens here. -/
def convert_to_splitwise_expense (env : Env) (parsed_expense : ParsedExpense)
    (group_id : Option ℤ) : Except String SplitwiseExpense :=
  let resolved_users := resolve_participants env parsed_expense.participants
  if resolved_users = [] then .error "No valid participants found for expense"
  else
    match create_splitwise_users parsed_expense env resolved_users with
    | .error e => .error e
    | .ok splitwise_users =>
        let category_id := resolve_category env parsed_expense.category
        let final_group_id :=
          match group_id with
          | some g => if g = 0 then env.default_group_id else some g
          | none => env.default_group_id
        .ok { cost := round2 parsed_expense.amount,
              description := parsed_expense.description,
              currency_code := parsed_expense.currency,
              date := format_date parsed_expense.date,
              category_id := category_id,
              group_id := final_group_id,
              users := splitwise_users,
              split_equally := parsed_expense.split_type = "equal" }

/-- The five failure reasons reported (via logger.error) by
validate_expense (expense_converter.py lines 185-217). -/
inductive ValidateReason where
  | costNotPositive
  | descriptionBlank
  | noUsers
  | paidSumMismatch
  | owedSumMismatch
deriving DecidableEq, Repr

/-- Sum of the paid shares of a share-line list (expense_converter.py
line 202). -/
def total_paid (users : List SplitwiseUser) : ℚ :=
  (users.map (fun u => u.paid_share)).sum

/-- Sum of the owed shares of a share-line list (expense_converter.py
line 203). -/
def total_owed (users : List SplitwiseUser) : ℚ :=
  (users.map (fun u => u.owed_share)).sum

/-- Balance validator (expense_converter.py lines 185-217).  The function
returns a boolean, reporting the reason of the first failed check through
logger.error; the pair returned here carries that reported reason.  An
empty cost string and a None users list are modelled by cost 0 and the
empty list, both failing the same checks as in Python. -/
def validate_expense (expense : SplitwiseExpense) :
    Bool × Option ValidateReason :=
  if expense.cost ≤ 0 then (false, some .costNotPositive)
  else if pyStrip expense.description = "" then (false, some .descriptionBlank)
  else if expense.users = [] then (false, some .noUsers)
  else if 1/100 < |total_paid expense.users - expense.cost| then
    (false, some .paidSumMismatch)
  else if 1/100 < |total_owed expense.users - expense.cost| then
    (false, some .owedSumMismatch)
  else (true, none)

/-- Observable calls at the validation/submission boundary made while
processing one email.  A call to the balance validator would be recorded
as validateRecord, a call to the external submission capability as
createExpense. -/
inductive Action where
  | validateRecord (record : SplitwiseExpense)
  | createExpense (record : SplitwiseExpense)
deriving DecidableEq, Repr

/-- Orchestrator (main.py lines 68-115), entered after the external
extraction service has produced the candidate expense.  The body converts
the candidate and passes the result directly to the external submission
capability (main.py lines 88-95); the returned list records, in order, the
validator and submission calls the source makes.  On a conversion error
the failure dict is returned and nothing is submitted. -/
def process_email (env : Env) (parsed_expense : ParsedExpense)
    (group_id : Option ℤ) : Except String SplitwiseExpense × List Action :=
  match convert_to_splitwise_expense env parsed_expense group_id with
  | .error e => (.error e, [])
  | .ok record => (.ok record, [Action.createExpense record])

/-- Share lines produced by the equal-split branch of create_splitwise_users
for a given total, payer id and resolved list (expense_converter.py lines
98-114). -/
def equal_split_lines (amount : ℚ) (payer_id : ℤ) (resolved : List Identity) :
    List SplitwiseUser :=
  resolved.map (fun user =>
    { user_id := user.id,
      paid_share := if user.id = payer_id then round2 amount else 0,
      owed_share := calculate_equal_split amount resolved.length })

/-- The five validator checks in the order the spec lists them, paired with
the reason reported when the check fails; a check maps an expense to true
when it passes. -/
def validator_checks : List ((SplitwiseExpense → Bool) × ValidateReason) :=
  [ (fun e => 0 < e.cost, ValidateReason.costNotPositive),
    (fun e => pyStrip e.description ≠ "", ValidateReason.descriptionBlank),
    (fun e => e.users ≠ [], ValidateReason.noUsers),
    (fun e => |total_paid e.users - e.cost| ≤ 1/100, ValidateReason.paidSumMismatch),
    (fun e => |total_owed e.users - e.cost| ≤ 1/100, ValidateReason.owedSumMismatch) ]

/-- Reason of the first validator check an expense fails, if any. -/
def first_failure (e : SplitwiseExpense) : Option ValidateReason :=
  (validator_checks.find? (fun c => !(c.1 e))).map (fun c => c.2)

/-- Spec-side reading of a 3-letter currency code: exactly three characters,
all alphabetic. -/
def three_letter_code (s : String) : Prop :=
  s.length = 3 ∧ ∀ c ∈ s.data, c.isAlpha = true

instance (s : String) : Decidable (three_letter_code s) := by
  unfold three_letter_code; infer_instance

/-- A bare identity carrying only a numeric id, as used in the concrete
scenarios below. -/
def ident (n : ℤ) : Identity :=
  { id := n, first_name := "", last_name := "", email := "" }

/-- Identity lookup table used in the concrete scenarios: six resolvable
friend tokens. -/
def friendsLookup : String → Option Identity := fun t =>
  if t = "u2" then some (ident 2)
  else if t = "u3" then some (ident 3)
  else if t = "u4" then some (ident 4)
  else if t = "u5" then some (ident 5)
  else if t = "u6" then some (ident 6)
  else if t = "u7" then some (ident 7)
  else none

/-- Concrete environment: principal has id 1, six friends resolvable, no
categories, no default group. -/
def env1 : Env :=
  { current_user := ident 1,
    find_user := friendsLookup,
    find_category := fun _ => none,
    default_group_id := none }

/-- Concrete candidate expense: 1.00 split equally among the principal and
six friends. -/
def pe1 : ParsedExpense :=
  { description := "Lunch", amount := 1, currency := "USD", date := none,
    category := none, participants := ["u2", "u3", "u4", "u5", "u6", "u7"],
    split_type := "equal", paid_by := none }

/-- The participant set pe1 resolves to under env1. -/
def users7 : List Identity :=
  [ident 1, ident 2, ident 3, ident 4, ident 5, ident 6, ident 7]

/-- The share lines the converter produces for pe1: each of the seven users
owes round2 of 1/7, i.e. 0.14, so the owed total is 0.98. -/
def lines1 : List SplitwiseUser :=
  [⟨1, 1, 7/50⟩, ⟨2, 0, 7/50⟩, ⟨3, 0, 7/50⟩, ⟨4, 0, 7/50⟩,
   ⟨5, 0, 7/50⟩, ⟨6, 0, 7/50⟩, ⟨7, 0, 7/50⟩]

/-- The submission record the converter assembles for pe1 under env1 with
group 42. -/
def record1 : SplitwiseExpense :=
  { cost := 1, description := "Lunch", currency_code := "USD", date := none,
    category_id := none, group_id := some 42, users := lines1,
    split_equally := true }

/-- Concrete candidate expense with a positive amount, 0.004, that formats
to "0.00". -/
def pe6 : ParsedExpense :=
  { description := "Tip", amount := 1/250, currency := "USD", date := none,
    category := none, participants := [], split_type := "equal",
    paid_by := none }

/-- Concrete candidate expense with the exact split policy. -/
def peExact : ParsedExpense :=
  { description := "Dinner", amount := 10, currency := "USD", date := none,
    category := none, participants := [], split_type := "exact",
    paid_by := none }

/-- Concrete candidate expense for witnesses: 10.00 equally split. -/
def peTen : ParsedExpense :=
  { description := "Dinner", amount := 10, currency := "USD", date := none,
    category := none, participants := [], split_type := "equal",
    paid_by := none }

/-- The single share line produced for peTen with the principal alone. -/
def linesTen : List SplitwiseUser := [⟨1, 10, 10⟩]

/-- The submission record the converter assembles for peExact under env1
with group 5: equal-split share lines but split_equally false. -/
def recordExact : SplitwiseExpense :=
  { cost := 10, description := "Dinner", currency_code := "USD", date := none,
    category_id := none, group_id := some 5, users := linesTen,
    split_equally := false }

/-- Rounding to 2 decimal places moves a value by at most half a cent. -/
theorem round2_abs_sub_le (x : ℚ) : |round2 x - x| ≤ 1/200 := by
  have h := abs_sub_round (100 * x)
  rw [abs_sub_comm] at h
  have h2 : round2 x - x = (((round (100 * x) : ℤ) : ℚ) - 100 * x) / 100 := by
    rw [round2]; ring
  rw [h2, abs_div, abs_of_pos (by norm_num : (0:ℚ) < 100)]
  rw [div_le_iff₀ (by norm_num : (0:ℚ) < 100)]
  linarith

/-- Payer determination reads only the paid_by field, so replacing the
split policy leaves it unchanged. -/
theorem determine_payer_split_irrel (pe : ParsedExpense) (env : Env)
    (resolved : List Identity) (s : String) :
    determine_payer { pe with split_type := s } env resolved =
      determine_payer pe env resolved := rfl

/-- Share-line creation raises when the resolved list is empty
(expense_converter.py lines 87-88). -/
theorem create_splitwise_users_nil (pe : ParsedExpense) (env : Env) :
    create_splitwise_users pe env [] = .error "No valid users found for expense" := by
  rw [create_splitwise_users]
  simp

/-- On a non-empty resolved list, share-line creation always succeeds with
the equal-split lines for the determined payer: the equal branch directly,
any other policy through the documented fallback recursion. -/
theorem create_splitwise_users_eq_ok (pe : ParsedExpense) (env : Env)
    (resolved : List Identity) (hne : resolved ≠ []) :
    create_splitwise_users pe env resolved =
      .ok (equal_split_lines pe.amount (determine_payer pe env resolved).id
        resolved) := by
  by_cases h : pe.split_type = "equal"
  · rw [create_splitwise_users]
    simp [hne, h, equal_split_lines]
  · rw [create_splitwise_users]
    simp [hne, h]
    rw [create_splitwise_users]
    simp [hne, equal_split_lines, determine_payer_split_irrel]

/-- Share-line creation does not depend on the split policy: every policy
yields the equal-split result. -/
theorem create_splitwise_users_split_irrel (pe : ParsedExpense) (env : Env)
    (resolved : List Identity) (s : String) :
    create_splitwise_users { pe with split_type := s } env resolved =
      create_splitwise_users pe env resolved := by
  by_cases hr : resolved = []
  · simp [hr, create_splitwise_users_nil]
  · rw [create_splitwise_users_eq_ok _ _ _ hr, create_splitwise_users_eq_ok _ _ _ hr]
    simp [determine_payer_split_irrel]

/-- Summing an indicator over a list counts the matching elements. -/
theorem sum_map_ite_id (a : ℚ) (pid : ℤ) :
    ∀ l : List Identity,
      (l.map fun u => if u.id = pid then a else 0).sum =
        (l.countP fun u => u.id = pid) * a
  | [] => by simp
  | x :: xs => by
      by_cases h : x.id = pid
      · simp [List.countP_cons, h, sum_map_ite_id a pid xs]
        ring
      · simp [List.countP_cons, h, sum_map_ite_id a pid xs]

/-- Paid total of the equal-split lines: the rounded total times the number
of lines carrying the payer's id. -/
theorem total_paid_equal_split (a : ℚ) (pid : ℤ) (l : List Identity) :
    total_paid (equal_split_lines a pid l) =
      (l.countP fun u => u.id = pid) * round2 a := by
  unfold total_paid equal_split_lines
  rw [List.map_map]
  exact sum_map_ite_id (round2 a) pid l

/-- Owed total of the equal-split lines: the per-user amount times the
number of lines. -/
theorem total_owed_equal_split (a : ℚ) (pid : ℤ) (l : List Identity) :
    total_owed (equal_split_lines a pid l) =
      l.length * calculate_equal_split a l.length := by
  unfold total_owed equal_split_lines
  rw [List.map_map]
  rw [show ((fun u : SplitwiseUser => u.owed_share) ∘ fun user : Identity =>
      ({ user_id := user.id,
         paid_share := if user.id = pid then round2 a else 0,
         owed_share := calculate_equal_split a l.length } : SplitwiseUser)) =
      (fun _ : Identity => calculate_equal_split a l.length) from rfl]
  rw [List.map_const', List.sum_replicate, nsmul_eq_mul]

/-- When the projected ids are duplicate-free and contain pid, exactly one
element carries pid. -/
theorem countP_id_eq_one {l : List Identity} {pid : ℤ}
    (hnd : (l.map Identity.id).Nodup) (hmem : pid ∈ l.map Identity.id) :
    (l.countP fun u => u.id = pid) = 1 := by
  have h1 : (l.map Identity.id).count pid = 1 := List.count_eq_one_of_mem hnd hmem
  rw [List.count, List.countP_map] at h1
  rw [← h1]
  apply List.countP_congr
  intro u _
  simp [Function.comp]

/-- The determined payer belongs to the resolved list whenever the current
user does. -/
theorem determine_payer_mem (pe : ParsedExpense) (env : Env)
    (resolved : List Identity) (hcu : env.current_user ∈ resolved) :
    determine_payer pe env resolved ∈ resolved := by
  cases hpb : pe.paid_by with
  | none => simpa [determine_payer, hpb]
  | some p =>
      by_cases hp : p = ""
      · simp [determine_payer, hpb, hp, hcu]
      · cases hf : resolved.find? (matchesPaidBy p) with
        | none => simp [determine_payer, hpb, hp, hf, hcu]
        | some u =>
            simp only [determine_payer, hpb, hp, hf, if_neg hp]
            exact List.mem_of_find?_eq_some hf

/-- One resolution step only ever appends to the accumulated list. -/
theorem resolve_step_append (env : Env) (acc : List Identity) (p : String) :
    ∃ rest, resolve_step env acc p = acc ++ rest := by
  unfold resolve_step
  split
  · exact ⟨[], by simp⟩
  · cases env.find_user (pyStrip p) with
    | none => exact ⟨[], by simp⟩
    | some user =>
        by_cases ha : acc.any (fun u => u.id = user.id)
        · exact ⟨[], by simp [ha]⟩
        · exact ⟨[user], by simp [ha]⟩

/-- The whole resolution loop only ever appends to the accumulated list. -/
theorem foldl_resolve_append (env : Env) :
    ∀ (ps : List String) (acc : List Identity),
      ∃ rest, ps.foldl (resolve_step env) acc = acc ++ rest
  | [], acc => ⟨[], by simp⟩
  | p :: ps, acc => by
      obtain ⟨r2, h2⟩ := foldl_resolve_append env ps (resolve_step env acc p)
      obtain ⟨r1, h1⟩ := resolve_step_append env acc p
      rw [List.foldl_cons, h2, h1, List.append_assoc]
      exact ⟨r1 ++ r2, rfl⟩

/-- One resolution step preserves duplicate-freedom of the projected ids. -/
theorem resolve_step_id_nodup (env : Env) (acc : List Identity) (p : String)
    (h : (acc.map Identity.id).Nodup) :
    ((resolve_step env acc p).map Identity.id).Nodup := by
  unfold resolve_step
  split
  · exact h
  · cases hf : env.find_user (pyStrip p) with
    | none => exact h
    | some user =>
        by_cases ha : acc.any (fun u => u.id = user.id)
        · simp [ha, h]
        · simp only [ha, if_neg, Bool.false_eq_true, if_false]
          rw [List.map_append, List.nodup_append]
          refine ⟨h, by simp, ?_⟩
          intro i hi
          simp only [List.map_cons, List.map_nil, List.mem_singleton]
          intro hie
          simp only [List.mem_map] at hi
          obtain ⟨v, hv, hvid⟩ := hi
          simp only [List.any_eq_true, decide_eq_true_eq] at ha
          exact ha ⟨v, hv, by rw [hvid, hie]⟩

/-- The resolution loop preserves duplicate-freedom of the projected ids. -/
theorem foldl_resolve_id_nodup (env : Env) :
    ∀ (ps : List String) (acc : List Identity),
      (acc.map Identity.id).Nodup →
      ((ps.foldl (resolve_step env) acc).map Identity.id).Nodup
  | [], _, h => h
  | p :: ps, acc, h => by
      rw [List.foldl_cons]
      exact foldl_resolve_id_nodup env ps _ (resolve_step_id_nodup env acc p h)

/-- After a step on a non-blank token whose lookup succeeds, the found id is
in the accumulated list. -/
theorem resolve_step_resolves (env : Env) (acc : List Identity) (p : String)
    (hp : pyStrip p ≠ "") {u : Identity}
    (hf : env.find_user (pyStrip p) = some u) :
    u.id ∈ (resolve_step env acc p).map Identity.id := by
  unfold resolve_step
  rw [if_neg hp, hf]
  by_cases ha : acc.any (fun v => v.id = u.id)
  · simp only [ha, if_true]
    simp only [List.any_eq_true, decide_eq_true_eq] at ha
    obtain ⟨v, hv, hvid⟩ := ha
    exact List.mem_map.mpr ⟨v, hv, hvid⟩
  · simp only [ha, Bool.false_eq_true, if_false]
    rw [List.map_append]
    exact List.mem_append_right _ (by simp)

/-- Every identity ids are duplicate-free in the resolver's result. -/
theorem resolve_participants_id_nodup (env : Env) (ps : List String) :
    ((resolve_participants env ps).map Identity.id).Nodup := by
  unfold resolve_participants
  exact foldl_resolve_id_nodup env ps [env.current_user] (by simp)

/-- The current user is always in the resolver's result. -/
theorem resolve_participants_current_mem (env : Env) (ps : List String) :
    env.current_user ∈ resolve_participants env ps := by
  unfold resolve_participants
  obtain ⟨rest, h⟩ := foldl_resolve_append env ps [env.current_user]
  rw [h]
  exact List.mem_append_left _ (by simp)

/-- A non-blank token whose lookup succeeds contributes its id to the
resolver's result, regardless of the other tokens. -/
theorem foldl_resolve_id_mem_of_token (env : Env) :
    ∀ (ps : List String) (acc : List Identity) {t : String} {u : Identity},
      t ∈ ps → pyStrip t ≠ "" → env.find_user (pyStrip t) = some u →
      u.id ∈ ((ps.foldl (resolve_step env) acc).map Identity.id)
  | [], _, t, _, ht, _, _ => absurd ht (List.not_mem_nil t)
  | p :: ps, acc, t, u, ht, hp, hf => by
      rw [List.foldl_cons]
      rcases List.mem_cons.mp ht with h | h
      · subst h
        have h1 := resolve_step_resolves env acc t hp hf
        obtain ⟨rest, hrest⟩ := foldl_resolve_append env ps (resolve_step env acc t)
        rw [hrest, List.map_append]
        exact List.mem_append_left _ h1
      · exact foldl_resolve_id_mem_of_token env ps (resolve_step env acc p) h hp hf

/-- C3: for every input SubmissionRecord the validator performs exactly the
five checks cost present and positive, description non-blank after
trimming, share-line list non-empty, paid-sum within 0.01 of cost,
owed-sum within 0.01 of cost, in this order and short-circuiting on the
first failure: it passes iff all five hold, and otherwise the reported
reason is the first failing check's; as a total function of the record it
never raises. -/
theorem validator_five_ordered_checks (e : SplitwiseExpense) :
    ((validate_expense e).1 = true ↔ ∀ c ∈ validator_checks, c.1 e = true) ∧
    (validate_expense e).2 = first_failure e := by
  unfold validate_expense first_failure validator_checks
  split_ifs with h1 h2 h3 h4 h5
  · simp [List.find?, not_lt.mpr h1]
  · simp [List.find?, not_le.mp h1, h2]
  · simp [List.find?, not_le.mp h1, h2, h3]
  · have h4n : ¬ |total_paid e.users - e.cost| ≤ (100:ℚ)⁻¹ := by
      simpa using not_le.mpr h4
    have d4 : decide (|total_paid e.users - e.cost| ≤ (100:ℚ)⁻¹) = false :=
      decide_eq_false h4n
    simp [List.find?, not_le.mp h1, h2, h3, h4n, d4]
  · have h4p : |total_paid e.users - e.cost| ≤ (100:ℚ)⁻¹ := by
      simpa using not_lt.mp h4
    have h5n : ¬ |total_owed e.users - e.cost| ≤ (100:ℚ)⁻¹ := by
      simpa using not_le.mpr h5
    have d4 : decide (|total_paid e.users - e.cost| ≤ (100:ℚ)⁻¹) = true :=
      decide_eq_true h4p
    have d5 : decide (|total_owed e.users - e.cost| ≤ (100:ℚ)⁻¹) = false :=
      decide_eq_false h5n
    simp [List.find?, not_le.mp h1, h2, h3, h4p, h5n, d4, d5]
  · have h4p : |total_paid e.users - e.cost| ≤ (100:ℚ)⁻¹ := by
      simpa using not_lt.mp h4
    have h5p : |total_owed e.users - e.cost| ≤ (100:ℚ)⁻¹ := by
      simpa using not_lt.mp h5
    have d4 : decide (|total_paid e.users - e.cost| ≤ (100:ℚ)⁻¹) = true :=
      decide_eq_true h4p
    have d5 : decide (|total_owed e.users - e.cost| ≤ (100:ℚ)⁻¹) = true :=
      decide_eq_true h5p
    simp [List.find?, not_le.mp h1, h2, h3, h4p, h5p, d4, d5]

/-- Witness for C3 at a concrete record: the validator agrees with the
ordered check list on recordExact. -/
theorem validator_five_ordered_checks_witness :
    ((validate_expense recordExact).1 = true ↔
      ∀ c ∈ validator_checks, c.1 recordExact = true) ∧
    (validate_expense recordExact).2 = first_failure recordExact :=
  validator_five_ordered_checks recordExact

/-- C4: for every total and resolved participant list, the split calculator
invoked with policy exact or percentage returns exactly the same share
lines as when invoked with policy equal on the same inputs. -/
theorem fallback_policy_eq (pe : ParsedExpense) (env : Env)
    (resolved : List Identity)
    (_h : pe.split_type = "exact" ∨ pe.split_type = "percentage") :
    create_splitwise_users pe env resolved =
      create_splitwise_users { pe with split_type := "equal" } env resolved :=
  (create_splitwise_users_split_irrel pe env resolved "equal").symm

/-- Witness for C4 at a concrete input: the exact policy gives the equal
policy's result. -/
theorem fallback_policy_eq_witness :
    create_splitwise_users peExact env1 [ident 1] =
      create_splitwise_users { peExact with split_type := "equal" } env1
        [ident 1] :=
  fallback_policy_eq peExact env1 [ident 1] (Or.inl rfl)

/-- C5: with paid_by set (and non-empty, which is what the Python truthiness
test checks), determine_payer returns the first resolved identity matching
paid_by case-insensitively on email, first name, last name or the "first
last" concatenation; with paid_by unset or unmatched it returns the
principal; and when the principal is in the resolved set the result is
always a member of the resolved set. -/
theorem determine_payer_spec (pe : ParsedExpense) (env : Env)
    (resolved : List Identity) (hcu : env.current_user ∈ resolved) :
    determine_payer pe env resolved ∈ resolved ∧
    (pe.paid_by = none → determine_payer pe env resolved = env.current_user) ∧
    (∀ p, pe.paid_by = some p → p ≠ "" →
      (∀ u, resolved.find? (matchesPaidBy p) = some u →
        determine_payer pe env resolved = u) ∧
      (resolved.find? (matchesPaidBy p) = none →
        determine_payer pe env resolved = env.current_user)) := by
  refine ⟨determine_payer_mem pe env resolved hcu, ?_, ?_⟩
  · intro h
    simp [determine_payer, h]
  · intro p hp hne
    constructor
    · intro u hu
      simp [determine_payer, hp, hne, hu]
    · intro hnone
      simp [determine_payer, hp, hne, hnone]

/-- Witness for C5 at a concrete input: paid_by Bob selects the resolved
identity with matching first name. -/
theorem determine_payer_spec_witness :
    (determine_payer
        { description := "d", amount := 4, currency := "USD", date := none,
          category := none, participants := [], split_type := "equal",
          paid_by := some "Bob" } env1
        [ident 1, { id := 9, first_name := "Bob", last_name := "X",
                    email := "b@x.com" }]) ∈
      [ident 1, ({ id := 9, first_name := "Bob", last_name := "X",
                   email := "b@x.com" } : Identity)] :=
  (determine_payer_spec
    { description := "d", amount := 4, currency := "USD", date := none,
      category := none, participants := [], split_type := "equal",
      paid_by := some "Bob" } env1
    [ident 1, { id := 9, first_name := "Bob", last_name := "X",
                email := "b@x.com" }]
    (by simp [env1])).1

/-- C7: the resolver never produces two entries with the same identifier,
and a token (even one occurring twice) that resolves to an identity
contributes exactly one entry with that identity's id, hence exactly one
share line. -/
theorem resolve_idempotent (env : Env) (participants : List String) :
    ((resolve_participants env participants).map Identity.id).Nodup ∧
    (∀ t u, t ∈ participants → pyStrip t ≠ "" →
      env.find_user (pyStrip t) = some u →
      ((resolve_participants env participants).countP
        (fun v => v.id = u.id)) = 1) := by
  refine ⟨resolve_participants_id_nodup env participants, ?_⟩
  intro t u ht hp hf
  exact countP_id_eq_one (resolve_participants_id_nodup env participants)
    (foldl_resolve_id_mem_of_token env participants [env.current_user] ht hp hf)

/-- Witness for C7 at a concrete input: the token u2 occurring twice yields
a single entry with id 2. -/
theorem resolve_idempotent_witness :
    ((resolve_participants env1 ["u2", "u2"]).countP
      (fun v => v.id = (ident 2).id)) = 1 :=
  (resolve_idempotent env1 ["u2", "u2"]).2 "u2" (ident 2)
    (by simp) (by decide) (by decide)

/-- C9: on an empty resolved list the share creation reports an error and
the per-user calculator returns 0.00 without dividing; on any non-empty
list creation succeeds, the division being by the positive list length. -/
theorem zero_participant_safety (pe : ParsedExpense) (env : Env)
    (resolved : List Identity) :
    create_splitwise_users pe env [] =
      .error "No valid users found for expense" ∧
    calculate_equal_split pe.amount 0 = 0 ∧
    (resolved ≠ [] → ∃ lines,
      create_splitwise_users pe env resolved = .ok lines ∧
      lines.length = resolved.length ∧ 0 < resolved.length) := by
  refine ⟨create_splitwise_users_nil pe env, by simp [calculate_equal_split], ?_⟩
  intro hne
  refine ⟨equal_split_lines pe.amount (determine_payer pe env resolved).id
    resolved, create_splitwise_users_eq_ok pe env resolved hne, ?_, ?_⟩
  · simp [equal_split_lines]
  · exact List.length_pos.mpr hne

/-- Witness for C9 at a concrete input: a single resolved user yields one
share line. -/
theorem zero_participant_safety_witness :
    ∃ lines, create_splitwise_users peTen env1 [ident 1] = .ok lines ∧
      lines.length = [ident 1].length ∧ 0 < [ident 1].length :=
  (zero_participant_safety peTen env1 [ident 1]).2.2 (by simp)

/-- A successful share creation implies a non-empty resolved list. -/
theorem create_ok_ne_nil (pe : ParsedExpense) (env : Env)
    (resolved : List Identity) (lines : List SplitwiseUser)
    (hok : create_splitwise_users pe env resolved = .ok lines) :
    resolved ≠ [] := by
  rintro rfl
  rw [create_splitwise_users_nil] at hok
  exact Except.noConfusion hok

/-- A successful share creation returns exactly the equal-split lines. -/
theorem create_ok_lines (pe : ParsedExpense) (env : Env)
    (resolved : List Identity) (lines : List SplitwiseUser)
    (hok : create_splitwise_users pe env resolved = .ok lines) :
    lines = equal_split_lines pe.amount
      (determine_payer pe env resolved).id resolved := by
  rw [create_splitwise_users_eq_ok pe env resolved
    (create_ok_ne_nil pe env resolved lines hok)] at hok
  injection hok with h
  exact h.symm

/-- Paid total of any successfully created share lines: exactly the rounded
total, provided the resolved ids are duplicate-free and the principal is
resolved. -/
theorem total_paid_create (pe : ParsedExpense) (env : Env)
    (resolved : List Identity) (lines : List SplitwiseUser)
    (hnd : (resolved.map Identity.id).Nodup)
    (hcu : env.current_user ∈ resolved)
    (hok : create_splitwise_users pe env resolved = .ok lines) :
    total_paid lines = round2 pe.amount := by
  obtain rfl := create_ok_lines pe env resolved lines hok
  rw [total_paid_equal_split]
  rw [countP_id_eq_one hnd (List.mem_map.mpr
    ⟨determine_payer pe env resolved,
     determine_payer_mem pe env resolved hcu, rfl⟩)]
  simp

/-- Owed total of any successfully created share lines: within half a cent
per participant of the candidate's amount. -/
theorem total_owed_create (pe : ParsedExpense) (env : Env)
    (resolved : List Identity) (lines : List SplitwiseUser)
    (hok : create_splitwise_users pe env resolved = .ok lines) :
    |total_owed lines - pe.amount| ≤ resolved.length * (1/200) := by
  have hne := create_ok_ne_nil pe env resolved lines hok
  obtain rfl := create_ok_lines pe env resolved lines hok
  rw [total_owed_equal_split]
  have hn0 : resolved.length ≠ 0 := by
    simpa [List.length_eq_zero] using hne
  have hnq : ((resolved.length : ℚ)) ≠ 0 := Nat.cast_ne_zero.mpr hn0
  rw [calculate_equal_split, if_neg hn0]
  have key := round2_abs_sub_le (pe.amount / resolved.length)
  have hsplit : (resolved.length : ℚ) * round2 (pe.amount / resolved.length) -
      pe.amount = (resolved.length : ℚ) *
        (round2 (pe.amount / resolved.length) -
          pe.amount / resolved.length) := by
    field_simp
    ring
  rw [hsplit, abs_mul,
    abs_of_nonneg (by positivity : (0:ℚ) ≤ (resolved.length : ℚ))]
  exact mul_le_mul_of_nonneg_left key (by positivity)

/-- C2 counterexample: for total 1.00 split equally among 7 resolved
participants the generated share lines carry owed shares of 0.14 each,
whose sum 0.98 deviates from the total by 0.02 > 0.01. -/
theorem split_completeness_counterexample :
    0 < pe1.amount ∧ pe1.split_type = "equal" ∧ users7.length = 7 ∧
    create_splitwise_users pe1 env1 users7 = .ok lines1 ∧
    1/100 < |total_owed lines1 - pe1.amount| := by
  refine ⟨by norm_num [pe1], rfl, rfl, ?_, ?_⟩
  · rw [create_splitwise_users_eq_ok pe1 env1 users7 (by decide)]
    norm_num [equal_split_lines, users7, ident, lines1, calculate_equal_split,
      determine_payer, pe1, env1, round2, round_eq]
  · have habs : |((1:ℚ))/50| = 1/50 := abs_of_pos (by norm_num)
    norm_num [total_owed, lines1, pe1, habs]

/-- C2 corrected: on a duplicate-free resolved set containing the
principal, the paid total is exactly the rounded total, hence within 0.01
of the total; the owed total is only guaranteed within N times half a cent
of the total, a bound that exceeds 0.01 for N at least 3. -/
theorem split_completeness_amended (pe : ParsedExpense) (env : Env)
    (resolved : List Identity) (lines : List SplitwiseUser)
    (_hsplit : pe.split_type = "equal")
    (hnd : (resolved.map Identity.id).Nodup)
    (hcu : env.current_user ∈ resolved)
    (hok : create_splitwise_users pe env resolved = .ok lines) :
    total_paid lines = round2 pe.amount ∧
    |total_paid lines - pe.amount| ≤ 1/100 ∧
    |total_owed lines - pe.amount| ≤ resolved.length * (1/200) := by
  refine ⟨total_paid_create pe env resolved lines hnd hcu hok, ?_,
    total_owed_create pe env resolved lines hok⟩
  rw [total_paid_create pe env resolved lines hnd hcu hok]
  calc |round2 pe.amount - pe.amount| ≤ 1/200 := round2_abs_sub_le _
    _ ≤ 1/100 := by norm_num

/-- Witness for the corrected C2 at a concrete input: total 10.00 with the
principal alone. -/
theorem split_completeness_amended_witness :
    total_paid linesTen = round2 peTen.amount ∧
    |total_paid linesTen - peTen.amount| ≤ 1/100 ∧
    |total_owed linesTen - peTen.amount| ≤ [ident 1].length * (1/200) :=
  split_completeness_amended peTen env1 [ident 1] linesTen rfl
    (by decide) (by simp [env1])
    (by rw [create_splitwise_users_eq_ok peTen env1 [ident 1] (by decide)]
        norm_num [equal_split_lines, determine_payer, peTen, env1, ident,
          calculate_equal_split, round2, round_eq, linesTen])

/-- Successful conversion assembles exactly the record built from the
resolver, the equal-split lines, the category lookup and the group-id
fallback. -/
theorem convert_eq_ok (env : Env) (pe : ParsedExpense) (gid : Option ℤ)
    (hres : resolve_participants env pe.participants ≠ []) :
    convert_to_splitwise_expense env pe gid =
      .ok { cost := round2 pe.amount,
            description := pe.description,
            currency_code := pe.currency,
            date := format_date pe.date,
            category_id := resolve_category env pe.category,
            group_id := match gid with
              | some g => if g = 0 then env.default_group_id else some g
              | none => env.default_group_id,
            users := equal_split_lines pe.amount
              (determine_payer pe env
                (resolve_participants env pe.participants)).id
              (resolve_participants env pe.participants),
            split_equally := pe.split_type = "equal" } := by
  simp only [convert_to_splitwise_expense]
  rw [if_neg hres, create_splitwise_users_eq_ok _ _ _ hres]

/-- Among the equal-split lines, exactly one has a positive paid share when
the rounded total is positive, the ids are duplicate-free and the payer id
occurs. -/
theorem equal_split_lines_countP_paid (a : ℚ) (pid : ℤ)
    (resolved : List Identity) (hnd : (resolved.map Identity.id).Nodup)
    (hmem : pid ∈ resolved.map Identity.id) (hpos : 0 < round2 a) :
    ((equal_split_lines a pid resolved).countP
      fun l => 0 < l.paid_share) = 1 := by
  unfold equal_split_lines
  rw [List.countP_map, ← countP_id_eq_one hnd hmem]
  apply List.countP_congr
  intro u _
  by_cases h : u.id = pid
  · simp [Function.comp, h, hpos]
  · simp [Function.comp, h]

/-- Upper-casing preserves the character count. -/
theorem pyUpper_length (s : String) : (pyUpper s).length = s.length := by
  show (s.data.map Char.toUpper).length = s.data.length
  exact List.length_map s.data Char.toUpper

/-- C6 counterexample: for the positive total 0.004 with the principal as
sole resolved participant under the equal policy, the payer's paid share
formats to 0.00, so no share line at all has a positive paid share. -/
theorem payer_uniqueness_counterexample :
    0 < pe6.amount ∧ pe6.split_type = "equal" ∧
    env1.current_user ∈ [ident 1] ∧
    (([ident 1]).map Identity.id).Nodup ∧
    create_splitwise_users pe6 env1 [ident 1] =
      .ok [{ user_id := 1, paid_share := 0, owed_share := 0 }] ∧
    (([({ user_id := 1, paid_share := 0, owed_share := 0 } :
        SplitwiseUser)]).countP fun l => 0 < l.paid_share) = 0 := by
  refine ⟨by norm_num [pe6], rfl, by simp [env1], by simp, ?_, by decide⟩
  rw [create_splitwise_users_eq_ok pe6 env1 [ident 1] (by decide)]
  norm_num [equal_split_lines, determine_payer, pe6, env1, ident,
    calculate_equal_split, round2, round_eq]

/-- C6 corrected: under the equal policy on a duplicate-free resolved set
containing the principal, and provided the total still rounds to a
positive 2-decimal amount, exactly one share line has a positive paid
share, it is the payer's and equals the rounded total, and every line not
carrying the payer's id has paid share 0.00. -/
theorem payer_uniqueness_amended (pe : ParsedExpense) (env : Env)
    (resolved : List Identity) (lines : List SplitwiseUser)
    (_hsplit : pe.split_type = "equal")
    (hnd : (resolved.map Identity.id).Nodup)
    (hcu : env.current_user ∈ resolved)
    (hpos : 0 < round2 pe.amount)
    (hok : create_splitwise_users pe env resolved = .ok lines) :
    (lines.countP fun l => 0 < l.paid_share) = 1 ∧
    (∀ l ∈ lines, 0 < l.paid_share →
      l.paid_share = round2 pe.amount ∧
      l.user_id = (determine_payer pe env resolved).id) ∧
    (∀ l ∈ lines, l.user_id ≠ (determine_payer pe env resolved).id →
      l.paid_share = 0) := by
  obtain rfl := create_ok_lines pe env resolved lines hok
  have hmem : (determine_payer pe env resolved).id ∈
      resolved.map Identity.id :=
    List.mem_map.mpr ⟨determine_payer pe env resolved,
      determine_payer_mem pe env resolved hcu, rfl⟩
  refine ⟨equal_split_lines_countP_paid pe.amount _ resolved hnd hmem hpos,
    ?_, ?_⟩
  · intro l hl hpl
    obtain ⟨u, _, rfl⟩ := List.mem_map.mp hl
    by_cases h : u.id = (determine_payer pe env resolved).id
    · exact ⟨by simp [h], by simp [h]⟩
    · simp [h] at hpl
  · intro l hl hne
    obtain ⟨u, _, rfl⟩ := List.mem_map.mp hl
    simp only at hne
    simp [hne]

/-- Witness for the corrected C6 at a concrete input: total 10.00 with the
principal alone yields one positive paid share. -/
theorem payer_uniqueness_amended_witness :
    (linesTen.countP fun l => 0 < l.paid_share) = 1 ∧
    (∀ l ∈ linesTen, 0 < l.paid_share →
      l.paid_share = round2 peTen.amount ∧
      l.user_id = (determine_payer peTen env1 [ident 1]).id) ∧
    (∀ l ∈ linesTen, l.user_id ≠ (determine_payer peTen env1 [ident 1]).id →
      l.paid_share = 0) :=
  payer_uniqueness_amended peTen env1 [ident 1] linesTen rfl
    (by decide) (by simp [env1]) (by norm_num [round2, round_eq, peTen])
    (by rw [create_splitwise_users_eq_ok peTen env1 [ident 1] (by decide)]
        norm_num [equal_split_lines, determine_payer, peTen, env1, ident,
          calculate_equal_split, round2, round_eq, linesTen])

/-- C8 counterexample: the currency a1! is not a 3-letter code, yet the
model accepts it (upper-cased), because the pydantic validator only checks
the character count. -/
theorem input_validation_counterexample :
    ¬ three_letter_code "a1!" ∧
    mkParsedExpense "dinner" 5 "a1!" none none [] "equal" none =
      .ok { description := "dinner", amount := 5, currency := "A1!",
            date := none, category := none, participants := [],
            split_type := "equal", paid_by := none } := by
  constructor
  · decide
  · rfl

/-- C8 corrected: construction fails with a structured error on amount ≤ 0,
on a currency that is not exactly 3 characters, and on a split policy
outside equal, exact, percentage; a successful construction carries the
upper-cased 3-character currency, the positive amount and a valid policy,
all before any resolution or lookup is involved. -/
theorem input_validation_amended (d : String) (amount : ℚ) (currency : String)
    (date : Option String) (category : Option String) (ps : List String)
    (split : String) (paid_by : Option String) :
    (amount ≤ 0 →
      mkParsedExpense d amount currency date category ps split paid_by =
        .error .amountNotPositive) ∧
    (0 < amount → currency.length ≠ 3 →
      mkParsedExpense d amount currency date category ps split paid_by =
        .error .currencyLength) ∧
    (0 < amount → currency.length = 3 → split ≠ "equal" → split ≠ "exact" →
      split ≠ "percentage" →
      mkParsedExpense d amount currency date category ps split paid_by =
        .error .splitTypeInvalid) ∧
    (∀ pe, mkParsedExpense d amount currency date category ps split paid_by =
        .ok pe →
      pe.currency = pyUpper currency ∧ pe.currency.length = 3 ∧
      pe.amount = amount ∧ 0 < pe.amount ∧
      (pe.split_type = "equal" ∨ pe.split_type = "exact" ∨
        pe.split_type = "percentage")) := by
  refine ⟨?_, ?_, ?_, ?_⟩
  · intro h
    unfold mkParsedExpense
    rw [if_pos h]
  · intro h hc
    unfold mkParsedExpense validate_currency
    rw [if_neg (not_le.mpr h), if_pos hc]
  · intro h hc h1 h2 h3
    unfold mkParsedExpense validate_currency validate_split_type
    rw [if_neg (not_le.mpr h), if_neg (by simp [hc]),
      if_neg (by simp [h1, h2, h3])]
  · intro pe hpe
    simp only [mkParsedExpense] at hpe
    split_ifs at hpe with h
    rcases h1 : validate_currency currency with e | c <;> rw [h1] at hpe
    · exact absurd hpe (by simp)
    rcases h2 : validate_split_type split with e | sv <;> rw [h2] at hpe
    · exact absurd hpe (by simp)
    simp only [Except.ok.injEq] at hpe
    subst hpe
    unfold validate_currency at h1
    split_ifs at h1 with hlen
    injection h1 with hc1
    unfold validate_split_type at h2
    split_ifs at h2 with hsv
    injection h2 with hs1
    subst hc1
    subst hs1
    refine ⟨rfl, ?_, rfl, not_le.mp h, hsv⟩
    rw [pyUpper_length]
    exact not_not.mp hlen

/-- Witness for the corrected C8 at a concrete input: amount -5 is rejected
with the structured amount error. -/
theorem input_validation_amended_witness :
    mkParsedExpense "snacks" (-5) "USD" none none [] "equal" none =
      .error .amountNotPositive :=
  (input_validation_amended "snacks" (-5) "USD" none none [] "equal"
    none).1 (by norm_num)

/-- C10: the assembled record's split_equally flag is true exactly when the
candidate's policy is equal; for a downgraded exact or percentage policy
the record keeps split_equally false while carrying exactly the share
lines of the equal-policy conversion. -/
theorem split_equally_flag (env : Env) (pe : ParsedExpense) (gid : Option ℤ)
    (record : SplitwiseExpense)
    (hok : convert_to_splitwise_expense env pe gid = .ok record) :
    (record.split_equally = true ↔ pe.split_type = "equal") ∧
    (pe.split_type ≠ "equal" →
      record.split_equally = false ∧
      convert_to_splitwise_expense env { pe with split_type := "equal" }
        gid = .ok { record with split_equally := true }) := by
  have hres : resolve_participants env pe.participants ≠ [] := by
    intro h
    simp [convert_to_splitwise_expense, h] at hok
  rw [convert_eq_ok env pe gid hres] at hok
  injection hok with h
  subst h
  constructor
  · simp
  · intro hne
    refine ⟨by simp [hne], ?_⟩
    rw [convert_eq_ok env { pe with split_type := "equal" } gid hres]
    simp [determine_payer_split_irrel]

/-- Witness for C10 at a concrete input: an exact-policy candidate yields a
record with split_equally false whose share lines match the equal-policy
conversion. -/
theorem split_equally_flag_witness :
    (recordExact.split_equally = true ↔ peExact.split_type = "equal") ∧
    (peExact.split_type ≠ "equal" →
      recordExact.split_equally = false ∧
      convert_to_splitwise_expense env1 { peExact with split_type := "equal" }
        (some 5) = .ok { recordExact with split_equally := true }) :=
  split_equally_flag env1 peExact (some 5) recordExact
    (by rw [convert_eq_ok env1 peExact (some 5) (by decide)]
        norm_num [recordExact, linesTen, equal_split_lines, determine_payer,
          peExact, env1, ident, calculate_equal_split, round2, round_eq,
          resolve_category, format_date, resolve_participants, resolve_step]
        decide)

/-- C1: processing the email that parses to pe1 converts it to record1 and
passes record1 straight to the external submission capability, the only
boundary call made, although record1 fails the balance validator with the
owed-sum-mismatch reason; the validator is never invoked. -/
theorem invariant_gate_not_enforced :
    process_email env1 pe1 (some 42) =
      (.ok record1, [Action.createExpense record1]) ∧
    (validate_expense record1).1 = false ∧
    (validate_expense record1).2 = some ValidateReason.owedSumMismatch := by
  have hres : resolve_participants env1 pe1.participants = users7 := by decide
  have hbig : convert_to_splitwise_expense env1 pe1 (some 42) =
      .ok record1 := by
    rw [convert_eq_ok env1 pe1 (some 42) (by rw [hres]; decide)]
    rw [hres]
    norm_num [record1, lines1, equal_split_lines, determine_payer, pe1, env1,
      users7, ident, calculate_equal_split, round2, round_eq,
      resolve_category, format_date]
  have h1 : ¬ (record1.cost ≤ 0) := by norm_num [record1]
  have h2 : ¬ (pyStrip record1.description = "") := by decide
  have h3 : ¬ (record1.users = []) := by decide
  have hpaidL : total_paid lines1 = 1 := by
    norm_num [total_paid, lines1]
  have howedL : total_owed lines1 = 49/50 := by
    norm_num [total_owed, lines1]
  have habs : |((1:ℚ))/50| = 1/50 := abs_of_pos (by norm_num)
  have h4 : ¬ ((100:ℚ))⁻¹ < |total_paid record1.users - record1.cost| := by
    norm_num [record1, hpaidL]
  have h5 : ((100:ℚ))⁻¹ < |total_owed record1.users - record1.cost| := by
    norm_num [record1, howedL, habs]
  refine ⟨?_, ?_, ?_⟩
  · unfold process_email
    rw [hbig]
  · simp [validate_expense, h1, h2, h3, h4, h5]
  · simp [validate_expense, h1, h2, h3, h4, h5]

end ExpenseForwarder
